import Mathlib

/-!
# Verification of the appium-client element-location core

Shallow embedding of the element-location and polling-wait subsystem of the
appium-client library, translated from the Rust sources:

* `src/find.rs` — the locator model (`By`), its wire serialization
  (`From<By> for LocatorParameters`, `serde::Serialize for By`) and the
  multi-element response decoding of `AppiumFind for Client::find_all_by`;
* `src/commands.rs` — the `AppiumCommand` endpoint router
  (`WebDriverCompatibleCommand::endpoint` / `method_and_body`);
* `src/wait.rs` — the poll-wait engine
  (`AppiumWaitOnSelector::wait`, `find_element`, `find_all_elements`,
  `Wait::for_element`, `Wait::for_elements`).

Modelling conventions:

* URLs are modelled by their path segment lists, with the `url` crate's
  representation of a trailing slash as a final empty segment (the path
  `"wd/hub/"` is `["wd", "hub", ""]`).  `url::Url::join` with a plain
  relative path reference (no scheme, no leading slash, no dot segments —
  the only references this code produces) performs the RFC 3986 merge:
  drop the last segment of the base path, then append the reference's
  segments.  Session and element-context identifiers are opaque ids and
  are modelled as single segments.
* `serde_json::Value` is modelled by `Json`, restricted to the shapes this
  code path produces and consumes (no numbers).
* Rust panics (an `unwrap` on `None`) are modelled by an `Option.none`
  result of the embedded function.
* Durations are modelled in abstract integer time units (`Nat`).
-/

/-- Model of `serde_json::Value`, restricted to the constructors the
element-location core produces and consumes. -/
inductive Json where
  | null : Json
  | bool (b : Bool) : Json
  | str (s : String) : Json
  | arr (items : List Json) : Json
  | obj (fields : List (String × Json)) : Json
deriving Repr

/-- Lower-case hexadecimal digit, as produced by Rust's `{:x}` formatting
used by serde_json's `\u` escapes. -/
def hexDigit (n : Nat) : Char :=
  if n < 10 then Char.ofNat (48 + n) else Char.ofNat (87 + n)

/-- Four lower-case hexadecimal digits (serde_json's `\uXXXX` escape body). -/
def hex4 (n : Nat) : String :=
  String.mk [hexDigit (n / 4096 % 16), hexDigit (n / 256 % 16),
    hexDigit (n / 16 % 16), hexDigit (n % 16)]

/-- serde_json's escaping of a single character inside a JSON string:
`"` and `\` are backslash-escaped, the control characters BS, TAB, LF, FF,
CR have short escapes, the remaining control characters use `\uXXXX`, and
everything else is emitted verbatim. -/
def escapeJsonChar (c : Char) : String :=
  if c = '"' then "\\\""
  else if c = '\\' then "\\\\"
  else if c = Char.ofNat 8 then "\\b"
  else if c = Char.ofNat 9 then "\\t"
  else if c = Char.ofNat 10 then "\\n"
  else if c = Char.ofNat 12 then "\\f"
  else if c = Char.ofNat 13 then "\\r"
  else if c.toNat < 32 then "\\u" ++ hex4 c.toNat
  else String.singleton c

/-- serde_json's rendering of a JSON string literal: quotes around the
escaped characters. -/
def renderJsonString (s : String) : String :=
  "\"" ++ String.join (s.data.map escapeJsonChar) ++ "\""

mutual

/-- Compact rendering of a `Json` value, as `serde_json::Value::to_string`
produces it (no whitespace, object fields in order). -/
def Json.render : Json → String
  | .null => "null"
  | .bool true => "true"
  | .bool false => "false"
  | .str s => renderJsonString s
  | .arr items => "[" ++ Json.renderItems items ++ "]"
  | .obj fields => "\x7b" ++ Json.renderFields fields ++ "\x7d"

/-- Comma-separated rendering of a JSON array's items. -/
def Json.renderItems : List Json → String
  | [] => ""
  | [j] => j.render
  | j :: rest => j.render ++ "," ++ Json.renderItems rest

/-- Comma-separated rendering of a JSON object's fields. -/
def Json.renderFields : List (String × Json) → String
  | [] => ""
  | [f] => renderJsonString f.1 ++ ":" ++ f.2.render
  | f :: rest => renderJsonString f.1 ++ ":" ++ f.2.render ++ "," ++ Json.renderFields rest

end

/-- Locators supported by Appium (`src/find.rs`, `enum By`). -/
inductive By where
  | Id (value : String)
  | Name (value : String)
  | Xpath (value : String)
  | UiAutomator (value : String)
  | AndroidDataMatcher (value : String)
  | AndroidViewMatcher (value : String)
  | AndroidViewTag (value : String)
  | IosClassChain (value : String)
  | IosNsPredicate (value : String)
  | AccessibilityId (value : String)
  | ClassName (value : String)
  | Image (value : String)
  | Custom (value : String)
  | CustomKind (kind : String) (value : String)
deriving Repr, DecidableEq

/-- `By::id` (`src/find.rs`). -/
def By.id (i : String) : By := By.Id i

/-- `By::name` (`src/find.rs`). -/
def By.name (n : String) : By := By.Name n

/-- `By::xpath` (`src/find.rs`): the source constructs `By::UiAutomator`
with the given query (translated verbatim from the source). -/
def By.xpath (query : String) : By := By.UiAutomator query

/-- `By::uiautomator` (`src/find.rs`). -/
def By.uiautomator (query : String) : By := By.UiAutomator query

/-- `By::android_data_matcher` (`src/find.rs`). -/
def By.android_data_matcher (query : String) : By := By.AndroidDataMatcher query

/-- `By::android_view_matcher` (`src/find.rs`). -/
def By.android_view_matcher (query : String) : By := By.AndroidViewMatcher query

/-- `By::android_view_tag` (`src/find.rs`). -/
def By.android_view_tag (query : String) : By := By.AndroidViewTag query

/-- `By::ios_class_chain` (`src/find.rs`). -/
def By.ios_class_chain (query : String) : By := By.IosClassChain query

/-- `By::ios_ns_predicate` (`src/find.rs`). -/
def By.ios_ns_predicate (query : String) : By := By.IosNsPredicate query

/-- `By::accessibility_id` (`src/find.rs`). -/
def By.accessibility_id (i : String) : By := By.AccessibilityId i

/-- `By::class_name` (`src/find.rs`). -/
def By.class_name (c : String) : By := By.ClassName c

/-- `By::image` (`src/find.rs`). -/
def By.image (base64_template : String) : By := By.Image base64_template

/-- `By::custom` (`src/find.rs`). -/
def By.custom (query : String) : By := By.Custom query

/-- `By::custom_kind` (`src/find.rs`). -/
def By.custom_kind (kind value : String) : By := By.CustomKind kind value

/-- The `(using, value)` wire pair (`src/find.rs`, `struct LocatorParameters`).
The Rust field `using` is named `using_` here because `using` is a reserved
word in Lean. -/
structure LocatorParameters where
  using_ : String
  value : String
deriving Repr, DecidableEq

/-- `From<By> for LocatorParameters` (`src/find.rs`): the per-variant wire
mapping of locator strategies. -/
def LocatorParameters.fromBy (val : By) : LocatorParameters :=
  let p : String × String := match val with
    | By.Id value => ("id", value)
    | By.Name value => ("name", value)
    | By.Xpath value => ("xpath", value)
    | By.UiAutomator value => ("-android uiautomator", value)
    | By.AndroidDataMatcher value => ("-android datamatcher", value)
    | By.AndroidViewMatcher value => ("-android viewmatcher", value)
    | By.AndroidViewTag value => ("-android viewtag", value)
    | By.IosClassChain value => ("-ios class chain", value)
    | By.IosNsPredicate value => ("-ios predicate string", value)
    | By.AccessibilityId value => ("accessibility id", value)
    | By.Image value => ("-image", value)
    | By.ClassName value => ("class name", value)
    | By.Custom value => ("-custom", value)
    | By.CustomKind kind value => (kind, value)
  { using_ := p.1, value := p.2 }

/-- `serde::Serialize for By` composed with `serde_json::to_string`
(`src/find.rs` together with `src/commands.rs` line 126): the derived
serializer of `LocatorParameters` writes the two fields in declaration
order, producing `{"using":...,"value":...}`. -/
def LocatorParameters.toJsonString (p : LocatorParameters) : String :=
  "\x7b\"using\":" ++ renderJsonString p.using_ ++ ",\"value\":" ++ renderJsonString p.value ++ "\x7d"

/-- `serde_json::to_string(&by)` as used in `method_and_body`. -/
def By.serializeToString (b : By) : String :=
  (LocatorParameters.fromBy b).toJsonString

/-- An element handle (`fantoccini::elements::Element`): a session-scoped
identifier string.  The client handle that the Rust value also carries is
irrelevant to routing and decoding and is not modelled. -/
structure Element where
  element_ref : String
deriving Repr, DecidableEq

/-- `Element::from_element_id` with the client argument dropped (see the
`Element` docstring). -/
def Element.from_element_id (element : String) : Element :=
  { element_ref := element }

/-- One step of serde's deserialization of `HashMap<String, String>`:
every field value must be a JSON string, otherwise the whole
deserialization fails. -/
def decodeStringFields : List (String × Json) → Option (List (String × String))
  | [] => some []
  | (k, Json.str v) :: rest => (decodeStringFields rest).map (fun r => (k, v) :: r)
  | _ => none

/-- `serde_json::from_value::<HashMap<String, String>>`: succeeds exactly
on an object all of whose values are strings. -/
def decodeStringMap : Json → Option (List (String × String))
  | Json.obj fields => decodeStringFields fields
  | _ => none

/-- serde's element-wise deserialization of a `Vec`: every item must
deserialize, otherwise the whole deserialization fails. -/
def decodeStringMapItems : List Json → Option (List (List (String × String)))
  | [] => some []
  | j :: rest =>
    match decodeStringMap j, decodeStringMapItems rest with
    | some m, some r => some (m :: r)
    | _, _ => none

/-- `serde_json::from_value::<Vec<HashMap<String, String>>>` as used in
`find_all_by` (`src/find.rs`). -/
def decodeVecStringMap : Json → Option (List (List (String × String)))
  | Json.arr items => decodeStringMapItems items
  | _ => none

/-- `HashMap::get` on a map deserialized from a JSON object: entries are
inserted in order, a later duplicate key overwrites an earlier one, so the
lookup returns the last matching entry. -/
def hashMapGet (m : List (String × String)) (key : String) : Option String :=
  ((m.filter (fun f => f.1 = key)).getLast?).map (fun f => f.2)

/-- `fantoccini::error::CmdError`, restricted to the variants the
element-location core constructs or inspects.  `json` abstracts
`CmdError::Json(serde_json::Error)` (the error message text is an
environment detail and is not modelled); `standard` abstracts
`CmdError::Standard` transport/WebDriver failures by an opaque tag. -/
inductive CmdError where
  | noSuchElement (raw : Json)
  | waitTimeout
  | notW3C (raw : Json)
  | json (msg : String)
  | standard (error : String)
  | badUrl (msg : String)
deriving Repr

/-- The response-decoding half of `find_all_by` (`src/find.rs`, the code
after `issue_cmd` returns `value`): deserialize the array of string maps,
keep the entries carrying the `"ELEMENT"` marker key, and build element
handles from them. -/
def find_all_by_decode (value : Json) : Except CmdError (List Element) :=
  match decodeVecStringMap value with
  | none => Except.error (CmdError.json "invalid type")
  | some result =>
    Except.ok (((result.filterMap (fun map => hashMapGet map "ELEMENT")).map
      (fun element => Element.from_element_id element)))

/-- `http::Method`, modelled by its name. -/
structure Method where
  name : String
deriving Repr, DecidableEq

/-- `Method::POST`. -/
def Method.POST : Method := { name := "POST" }

/-- `AppiumCommand` (`src/commands.rs`). -/
inductive AppiumCommand where
  | FindElement (b : By)
  | FindElementWithContext (b : By) (context : String)
  | FindElements (b : By)
  | FindElementsWithContext (b : By) (context : String)
  | Custom (method : Method) (command : String) (body : Option Json)
deriving Repr

/-- `url::Url::join` for the plain relative path references this code
produces (RFC 3986 merge, no dot segments): drop the last segment of the
base path, append the reference's segments. -/
def urlJoin (base rel : List String) : List String :=
  base.dropLast ++ rel

/-- Rendering of a segment list back to a path string (`"/"`-separated,
a trailing empty segment renders as a trailing slash). -/
def pathString (segments : List String) : String :=
  String.intercalate "/" segments

/-- `WebDriverCompatibleCommand::endpoint` for `AppiumCommand`
(`src/commands.rs` lines 95–117).  `session_id.as_ref().unwrap()` panics
when the session id is absent; the panic is modelled by `none`.  The
`format!("session/{}/", id)` reference contributes the segments
`["session", id, ""]` (trailing slash = trailing empty segment); a custom
command's relative path is split on `/`. -/
def AppiumCommand.endpoint (cmd : AppiumCommand) (base_url : List String)
    (session_id : Option String) : Option (List String) :=
  match session_id with
  | none => none
  | some sid =>
    let base := urlJoin base_url ["session", sid, ""]
    some (match cmd with
      | AppiumCommand.FindElement _ => urlJoin base ["element"]
      | AppiumCommand.FindElements _ => urlJoin base ["elements"]
      | AppiumCommand.FindElementWithContext _ context =>
          urlJoin (urlJoin (urlJoin base ["element"]) [context]) ["element"]
      | AppiumCommand.FindElementsWithContext _ context =>
          urlJoin (urlJoin (urlJoin base ["element"]) [context]) ["elements"]
      | AppiumCommand.Custom _ command _ => urlJoin base (command.splitOn "/"))

/-- `WebDriverCompatibleCommand::method_and_body` for `AppiumCommand`
(`src/commands.rs` lines 119–138): the four find variants use `POST` with
the locator serialized by serde_json as the body; a custom command uses
its own method and renders its optional JSON body. -/
def AppiumCommand.method_and_body (cmd : AppiumCommand) : Method × Option String :=
  match cmd with
  | AppiumCommand.FindElement b
  | AppiumCommand.FindElements b
  | AppiumCommand.FindElementWithContext b _
  | AppiumCommand.FindElementsWithContext b _ =>
      (Method.POST, some (By.serializeToString b))
  | AppiumCommand.Custom method _ value =>
      (method, value.map Json.render)

/-- The wall-clock time (in abstract units) at which loop iteration `k`
(1-indexed) of `AppiumWaitOnSelector::wait` begins, assuming instantaneous
lookup attempts.  `tokio::time::interval`'s first tick completes
immediately, so iterations 1 and 2 both start at time 0 and iteration
`k ≥ 2` starts at `(k - 2) * check_delay`. -/
def elapsedAt (check_delay k : Nat) : Nat :=
  (k - 2) * check_delay

/-- The loop body of `AppiumWaitOnSelector::wait` (`src/wait.rs` lines
164–184), fuelled: iteration `k` first checks `start.elapsed() > timeout`
and returns `CmdError::WaitTimeout` (having performed `k - 1` lookup
attempts), otherwise runs `locate`; an error propagates immediately, a
`some` result returns successfully, a `none` result ticks the interval and
retries.  The result is paired with the number of lookup attempts
performed; `none` means the fuel ran out (which `wait` below supplies
enough fuel to preclude). -/
def waitFuel (timeout check_delay : Nat) (locate : Nat → Except CmdError (Option α)) :
    Nat → Nat → Option (Except CmdError α × Nat)
  | 0, _ => none
  | fuel + 1, k =>
    if elapsedAt check_delay k > timeout then
      some (Except.error CmdError.waitTimeout, k - 1)
    else
      match locate k with
      | Except.error e => some (Except.error e, k)
      | Except.ok (some result) => some (Except.ok result, k)
      | Except.ok none => waitFuel timeout check_delay locate fuel (k + 1)

/-- Fuel sufficient for `waitFuel` to reach its timeout check when the
poll interval is positive: the loop times out at iteration
`timeout / check_delay + 3` at the latest. -/
def waitAttempts (timeout check_delay : Nat) : Nat :=
  timeout / check_delay + 3

/-- `AppiumWaitOnSelector::wait` (`src/wait.rs`): run the fuelled loop
from iteration 1 with sufficient fuel. -/
def wait (timeout check_delay : Nat) (locate : Nat → Except CmdError (Option α)) :
    Option (Except CmdError α × Nat) :=
  waitFuel timeout check_delay locate (waitAttempts timeout check_delay) 1

/-- `find_element` (`src/wait.rs` lines 234–240) applied to the result of
one `find_by` attempt: a success is `some`, the recognized
`CmdError::NoSuchElement` condition becomes `none` (retry), any other
error propagates. -/
def find_element (find_by_result : Except CmdError Element) :
    Except CmdError (Option Element) :=
  match find_by_result with
  | Except.ok element => Except.ok (some element)
  | Except.error (CmdError.noSuchElement _) => Except.ok none
  | Except.error err => Except.error err

/-- `find_all_elements` (`src/wait.rs` lines 242–248) applied to the
result of one `find_all_by` attempt. -/
def find_all_elements (find_all_by_result : Except CmdError (List Element)) :
    Except CmdError (Option (List Element)) :=
  match find_all_by_result with
  | Except.ok result => Except.ok (some result)
  | Except.error (CmdError.noSuchElement _) => Except.ok none
  | Except.error err => Except.error err

/-- `Wait::for_element` (`src/wait.rs` lines 142–146): the wait loop over
single-element lookups.  `find_by` gives the result of the k-th
`client.find_by` attempt. -/
def for_element (timeout check_delay : Nat)
    (find_by : Nat → Except CmdError Element) :
    Option (Except CmdError Element × Nat) :=
  wait timeout check_delay (fun k => find_element (find_by k))

/-- `Wait::for_elements` (`src/wait.rs` lines 152–156): the wait loop over
multi-element lookups.  `find_all_by` gives the result of the k-th
`client.find_all_by` attempt. -/
def for_elements (timeout check_delay : Nat)
    (find_all_by : Nat → Except CmdError (List Element)) :
    Option (Except CmdError (List Element) × Nat) :=
  wait timeout check_delay (fun k => find_all_elements (find_all_by k))

/-! ## Helper lemmas -/

/-- Dropping the last segment of a path that ends in a known segment. -/
theorem dropLast_append_three (l : List String) (a b c : String) :
    (l ++ [a, b, c]).dropLast = l ++ [a, b] := by
  have h : l ++ [a, b, c] = (l ++ [a, b]) ++ [c] := by simp
  rw [h, List.dropLast_concat]

/-- If the lookup reports "not found" on iterations `j ≤ i < j + m`, succeeds
on iteration `j + m`, and the deadline has not passed at any of those
iterations, then the fuelled wait loop returns the successful result after
exactly `j + m` attempts. -/
theorem waitFuel_run_success (T P : Nat) (locate : Nat → Except CmdError (Option α))
    (r : α) :
    ∀ (m j fuel : Nat),
      (∀ i, j ≤ i → i < j + m → locate i = Except.ok none) →
      locate (j + m) = Except.ok (some r) →
      (∀ i, j ≤ i → i ≤ j + m → elapsedAt P i ≤ T) →
      m + 1 ≤ fuel →
      waitFuel T P locate fuel j = some (Except.ok r, j + m) := by
  intro m
  induction m with
  | zero =>
    intro j fuel h0 hs hT hf
    obtain ⟨f, rfl⟩ : ∃ f, fuel = f + 1 := ⟨fuel - 1, by omega⟩
    simp only [waitFuel]
    rw [if_neg (Nat.not_lt.mpr (hT j le_rfl (by omega)))]
    rw [show j + 0 = j from rfl] at hs
    rw [hs]
    rfl
  | succ m ih =>
    intro j fuel h0 hs hT hf
    obtain ⟨f, rfl⟩ : ∃ f, fuel = f + 1 := ⟨fuel - 1, by omega⟩
    simp only [waitFuel]
    rw [if_neg (Nat.not_lt.mpr (hT j le_rfl (by omega)))]
    rw [h0 j le_rfl (by omega)]
    have step := ih (j + 1) f
      (fun i h1 h2 => h0 i (by omega) (by omega))
      (by rw [show j + 1 + m = j + (m + 1) from by omega]; exact hs)
      (fun i h1 h2 => hT i (by omega) (by omega)) (by omega)
    rw [show j + (m + 1) = j + 1 + m from by omega]
    exact step

/-- If the lookup reports "not found" on every iteration and the poll
interval is positive, the fuelled wait loop (given enough fuel) returns
`WaitTimeout` after exactly `T / P + 2` attempts: the deadline check at the
top of iteration `T / P + 3` fires first. -/
theorem waitFuel_run_timeout (T P : Nat) (hP : 0 < P)
    (locate : Nat → Except CmdError (Option α))
    (hnot : ∀ i, locate i = Except.ok none) :
    ∀ (fuel j : Nat), j ≤ T / P + 3 → T / P + 3 + 1 ≤ fuel + j →
      waitFuel T P locate fuel j =
        some (Except.error CmdError.waitTimeout, T / P + 2) := by
  intro fuel
  induction fuel with
  | zero =>
    intro j h1 h2
    rw [Nat.zero_add] at h2
    exact absurd (le_trans h2 h1) (Nat.not_succ_le_self _)
  | succ f ih =>
    intro j h1 h2
    simp only [waitFuel]
    by_cases hj : j = T / P + 3
    · subst hj
      have hgt : elapsedAt P (T / P + 3) > T := by
        show T < (T / P + 3 - 2) * P
        have h3 : T / P + 3 - 2 = T / P + 1 := rfl
        rw [h3]
        exact (Nat.div_lt_iff_lt_mul hP).mp (Nat.lt_succ_self _)
      rw [if_pos hgt]
      have h31 : T / P + 3 - 1 = T / P + 2 := rfl
      rw [h31]
    · have hjlt : j ≤ T / P + 2 := Nat.lt_succ_iff.mp (Nat.lt_of_le_of_ne h1 hj)
      have hlt : ¬ elapsedAt P j > T := by
        show ¬ T < (j - 2) * P
        have hle : j - 2 ≤ T / P := Nat.sub_le_iff_le_add.mpr hjlt
        exact Nat.not_lt.mpr ((Nat.le_div_iff_mul_le hP).mp hle)
      rw [if_neg hlt, hnot j]
      exact ih (j + 1) (Nat.succ_le_succ hjlt)
        (by rwa [Nat.add_right_comm f 1 j] at h2)

/-- Canonical JSON encoding of a string map: an object whose values are
all JSON strings (the shape a conforming multi-element response entry
takes on the wire). -/
def objOfStringMap (m : List (String × String)) : Json :=
  Json.obj (m.map (fun f => (f.1, Json.str f.2)))

/-- Decoding inverts the canonical encoding of a string map's fields. -/
theorem decodeStringFields_encode (m : List (String × String)) :
    decodeStringFields (m.map (fun f => (f.1, Json.str f.2))) = some m := by
  induction m with
  | nil => rfl
  | cons f t ih =>
    obtain ⟨k, v⟩ := f
    simp [decodeStringFields, ih]

/-- Decoding inverts the canonical encoding of a string map. -/
theorem decodeStringMap_encode (m : List (String × String)) :
    decodeStringMap (objOfStringMap m) = some m := by
  simp [decodeStringMap, objOfStringMap, decodeStringFields_encode]

/-- Decoding inverts the canonical encoding of a list of string maps. -/
theorem decodeStringMapItems_encode (ms : List (List (String × String))) :
    decodeStringMapItems (ms.map objOfStringMap) = some ms := by
  induction ms with
  | nil => rfl
  | cons m t ih => simp [decodeStringMapItems, decodeStringMap_encode, ih]

/-! ## Claims -/

/-- C5: the claim says the public `By::xpath` constructor yields a locator
serializing to `(using = "xpath", value = q)`.  The code constructs
`By::UiAutomator` instead (a slip contradicting the constructor's own
documentation), so `By::xpath("//el")` serializes with the
`-android uiautomator` tag; the enum variant `By::Xpath` itself does map
to `"xpath"`. -/
theorem xpath_constructor_builds_uiautomator :
    LocatorParameters.fromBy (By.xpath "//el") =
      { using_ := "-android uiautomator", value := "//el" } ∧
    LocatorParameters.fromBy (By.Xpath "//el") =
      { using_ := "xpath", value := "//el" } :=
  ⟨rfl, rfl⟩

/-- C9 (counterexample): the claim says every locator variant produces a
non-empty `using` tag, but a caller-supplied custom kind passes its tag
through verbatim, so the empty tag is reachable. -/
theorem custom_kind_empty_using_tag :
    (LocatorParameters.fromBy (By.custom_kind "" "query")).using_ = "" :=
  rfl

/-- C9 (amended): conversion of a locator to its `(using, value)` wire
pair is total and deterministic; every variant other than a
caller-supplied custom kind produces a non-empty `using` tag, and a custom
kind yields exactly the caller-supplied tag and query (so its tag is empty
exactly when the caller's tag is). -/
theorem locator_wire_total_and_tagged (b : By) :
    LocatorParameters.fromBy b = LocatorParameters.fromBy b ∧
    ((∀ t v, b ≠ By.CustomKind t v) → (LocatorParameters.fromBy b).using_ ≠ "") ∧
    (∀ t v, b = By.CustomKind t v →
      LocatorParameters.fromBy b = { using_ := t, value := v }) := by
  refine ⟨rfl, ?_, ?_⟩
  · intro h
    cases b <;> first | exact absurd rfl (h _ _) | simp [LocatorParameters.fromBy]
  · intro _t _v hb
    subst hb
    rfl

/-- C9 (witness): the amended claim applied to a built-in variant and to a
custom kind. -/
theorem locator_wire_total_and_tagged_witness :
    (LocatorParameters.fromBy (By.id "x")).using_ ≠ "" ∧
    LocatorParameters.fromBy (By.custom_kind "tag" "q") =
      { using_ := "tag", value := "q" } :=
  ⟨(locator_wire_total_and_tagged (By.id "x")).2.1 (fun _ _ h => By.noConfusion h),
   (locator_wire_total_and_tagged (By.custom_kind "tag" "q")).2.2 "tag" "q" rfl⟩

/-- C10: the endpoint router is partial in the session identifier: with a
session id supplied it never panics and computes a URL for every command
and base URL, while with the session id absent it panics (the `unwrap` on
`None`, modelled as `none`) instead of returning a routing error value. -/
theorem endpoint_partial_in_session_id (cmd : AppiumCommand) (base : List String)
    (s : String) :
    (∃ u, AppiumCommand.endpoint cmd base (some s) = some u) ∧
    AppiumCommand.endpoint cmd base none = none := by
  constructor
  · cases cmd <;> exact ⟨_, rfl⟩
  · rfl

/-- C6: for every locator and session id, the find-one command routes to
`session/{id}/element` and the find-all command to
`session/{id}/elements`, both with method `POST` and the locator's
serialized `(using, value)` pair as body; concretely,
`By::accessibility_id("Go")` with session `"abc"` gives the path
`session/abc/element` and the body
`{"using":"accessibility id","value":"Go"}`. -/
theorem find_endpoints_and_bodies (b : By) (s : String) (base : List String) :
    AppiumCommand.endpoint (AppiumCommand.FindElement b) base (some s) =
      some (base.dropLast ++ ["session", s, "element"]) ∧
    AppiumCommand.endpoint (AppiumCommand.FindElements b) base (some s) =
      some (base.dropLast ++ ["session", s, "elements"]) ∧
    AppiumCommand.method_and_body (AppiumCommand.FindElement b) =
      (Method.POST, some ((LocatorParameters.fromBy b).toJsonString)) ∧
    AppiumCommand.method_and_body (AppiumCommand.FindElements b) =
      (Method.POST, some ((LocatorParameters.fromBy b).toJsonString)) ∧
    AppiumCommand.endpoint (AppiumCommand.FindElement (By.accessibility_id "Go"))
      [""] (some "abc") = some ["session", "abc", "element"] ∧
    pathString ["session", "abc", "element"] = "session/abc/element" ∧
    By.serializeToString (By.accessibility_id "Go") =
      "\x7b\"using\":\"accessibility id\",\"value\":\"Go\"\x7d" := by
  refine ⟨?_, ?_, rfl, rfl, rfl, rfl, rfl⟩
  · simp [AppiumCommand.endpoint, urlJoin, dropLast_append_three]
  · simp [AppiumCommand.endpoint, urlJoin, dropLast_append_three]

/-- C1: the claim says the in-context find commands route to
`session/{id}/element/{elementId}/element[s]`.  They do not: the relative
URL joins lack trailing slashes, so each successive `join` replaces the
last path segment (RFC 3986 merge), the context id is dropped, and the
in-context commands route to exactly the same `session/{id}/element[s]`
endpoints as the context-free ones.  (Method `POST` and the serialized
locator body do hold, per `method_and_body`.) -/
theorem endpoint_context_dropped (b : By) (ctx s : String) (base : List String) :
    AppiumCommand.endpoint (AppiumCommand.FindElementWithContext b ctx) base (some s) =
      some (base.dropLast ++ ["session", s, "element"]) ∧
    AppiumCommand.endpoint (AppiumCommand.FindElementsWithContext b ctx) base (some s) =
      some (base.dropLast ++ ["session", s, "elements"]) ∧
    AppiumCommand.endpoint (AppiumCommand.FindElementWithContext b ctx) base (some s) =
      AppiumCommand.endpoint (AppiumCommand.FindElement b) base (some s) ∧
    AppiumCommand.method_and_body (AppiumCommand.FindElementWithContext b ctx) =
      (Method.POST, some ((LocatorParameters.fromBy b).toJsonString)) ∧
    AppiumCommand.endpoint
      (AppiumCommand.FindElementWithContext (By.id "x") "ctx")
      ["wd", "hub", ""] (some "abc") =
      some ["wd", "hub", "session", "abc", "element"] := by
  refine ⟨?_, ?_, ?_, rfl, rfl⟩
  · simp [AppiumCommand.endpoint, urlJoin, dropLast_append_three]
  · simp [AppiumCommand.endpoint, urlJoin, dropLast_append_three]
  · simp [AppiumCommand.endpoint, urlJoin, dropLast_append_three]

/-- C8: decoding a multi-element response that is an array of string maps
yields handles exactly for the entries carrying the `"ELEMENT"` marker
key, silently omitting unmarked entries instead of failing; concretely,
`[{"ELEMENT":"a"},{},{"ELEMENT":"b"}]` yields the handles `"a"` and `"b"`
only. -/
theorem find_all_by_decode_keeps_marked (ms : List (List (String × String))) :
    find_all_by_decode (Json.arr (ms.map objOfStringMap)) =
      Except.ok ((ms.filterMap (fun map => hashMapGet map "ELEMENT")).map
        (fun element => Element.from_element_id element)) ∧
    find_all_by_decode (Json.arr [Json.obj [("ELEMENT", Json.str "a")],
        Json.obj [], Json.obj [("ELEMENT", Json.str "b")]]) =
      Except.ok [Element.from_element_id "a", Element.from_element_id "b"] := by
  constructor
  · simp [find_all_by_decode, decodeVecStringMap, decodeStringMapItems_encode]
  · rfl

/-- C2: for a lookup that reports the recognized not-found condition
(`CmdError::NoSuchElement`) exactly `N` times and then succeeds, with poll
interval `P > 0` and timeout `T > N * P`, both wait entry points return
the successful result after exactly `N + 1` lookup attempts, and the
not-found condition never reaches the caller. -/
theorem wait_succeeds_after_retries
    (N T P : Nat) (hP : 0 < P) (hT : N * P < T)
    (f : Nat → Except CmdError Element) (g : Nat → Except CmdError (List Element))
    (raw raw2 : Nat → Json) (e : Element) (l : List Element)
    (hf : ∀ k, 1 ≤ k → k ≤ N → f k = Except.error (CmdError.noSuchElement (raw k)))
    (hfe : f (N + 1) = Except.ok e)
    (hg : ∀ k, 1 ≤ k → k ≤ N → g k = Except.error (CmdError.noSuchElement (raw2 k)))
    (hgl : g (N + 1) = Except.ok l) :
    for_element T P f = some (Except.ok e, N + 1) ∧
    for_elements T P g = some (Except.ok l, N + 1) := by
  have hdiv : N ≤ T / P := (Nat.le_div_iff_mul_le hP).mpr (le_of_lt hT)
  have hfuel : N + 1 ≤ waitAttempts T P := by
    show N + 1 ≤ T / P + 3
    omega
  have helapsed : ∀ i, 1 ≤ i → i ≤ 1 + N → elapsedAt P i ≤ T := by
    intro i h1 h2
    show (i - 2) * P ≤ T
    exact le_of_lt (lt_of_le_of_lt (Nat.mul_le_mul_right P (by omega)) hT)
  constructor
  · have h := waitFuel_run_success T P (fun k => find_element (f k)) e N 1
      (waitAttempts T P)
      (fun i hi1 hi2 => by
        show find_element (f i) = Except.ok none
        rw [hf i hi1 (by omega)]
        rfl)
      (by
        show find_element (f (1 + N)) = Except.ok (some e)
        rw [show 1 + N = N + 1 from by omega, hfe]
        rfl)
      helapsed hfuel
    rw [show 1 + N = N + 1 from by omega] at h
    exact h
  · have h := waitFuel_run_success T P (fun k => find_all_elements (g k)) l N 1
      (waitAttempts T P)
      (fun i hi1 hi2 => by
        show find_all_elements (g i) = Except.ok none
        rw [hg i hi1 (by omega)]
        rfl)
      (by
        show find_all_elements (g (1 + N)) = Except.ok (some l)
        rw [show 1 + N = N + 1 from by omega, hgl]
        rfl)
      helapsed hfuel
    rw [show 1 + N = N + 1 from by omega] at h
    exact h

/-- C2 (witness): two not-found attempts then success, with interval 1 and
timeout 3 > 2 * 1: both waits succeed after exactly 3 attempts. -/
theorem wait_succeeds_after_retries_witness :
    for_element 3 1 (fun k => if k ≤ 2
        then Except.error (CmdError.noSuchElement Json.null)
        else Except.ok (Element.from_element_id "e1")) =
      some (Except.ok (Element.from_element_id "e1"), 3) ∧
    for_elements 3 1 (fun k => if k ≤ 2
        then Except.error (CmdError.noSuchElement Json.null)
        else Except.ok [Element.from_element_id "a"]) =
      some (Except.ok [Element.from_element_id "a"], 3) :=
  wait_succeeds_after_retries 2 3 1 (by decide) (by decide) _ _
    (fun _ => Json.null) (fun _ => Json.null)
    (Element.from_element_id "e1") [Element.from_element_id "a"]
    (fun k _ h2 => by simp [h2])
    (by rfl)
    (fun k _ h2 => by simp [h2])
    (by rfl)

/-- C3: if every lookup attempt reports the recognized not-found
condition and the poll interval `P` is positive, both wait entry points
fail with the distinct `CmdError::WaitTimeout` value (a constructor
different from the not-found and transport errors) after `T / P + 2`
lookup attempts; the deadline check that fires is the one at the top of
loop iteration `T / P + 3`, before any further lookup is issued, at which
point the elapsed time `elapsedAt P (T / P + 3)` is at least `T`. -/
theorem wait_times_out
    (T P : Nat) (hP : 0 < P)
    (f : Nat → Except CmdError Element) (g : Nat → Except CmdError (List Element))
    (raw raw2 : Nat → Json)
    (hf : ∀ k, f k = Except.error (CmdError.noSuchElement (raw k)))
    (hg : ∀ k, g k = Except.error (CmdError.noSuchElement (raw2 k))) :
    for_element T P f = some (Except.error CmdError.waitTimeout, T / P + 2) ∧
    for_elements T P g = some (Except.error CmdError.waitTimeout, T / P + 2) ∧
    T ≤ elapsedAt P (T / P + 3) ∧
    (∀ j, CmdError.waitTimeout ≠ CmdError.noSuchElement j) ∧
    (∀ s, CmdError.waitTimeout ≠ CmdError.standard s) := by
  refine ⟨?_, ?_, ?_, ?_, ?_⟩
  · exact waitFuel_run_timeout T P hP (fun k => find_element (f k))
      (fun i => by show find_element (f i) = Except.ok none; rw [hf i]; rfl)
      (waitAttempts T P) 1 (Nat.succ_le_succ (Nat.zero_le _)) le_rfl
  · exact waitFuel_run_timeout T P hP (fun k => find_all_elements (g k))
      (fun i => by show find_all_elements (g i) = Except.ok none; rw [hg i]; rfl)
      (waitAttempts T P) 1 (Nat.succ_le_succ (Nat.zero_le _)) le_rfl
  · show T ≤ (T / P + 3 - 2) * P
    have h3 : T / P + 3 - 2 = T / P + 1 := rfl
    rw [h3]
    exact le_of_lt ((Nat.div_lt_iff_lt_mul hP).mp (Nat.lt_succ_self _))
  · intro j h
    exact CmdError.noConfusion h
  · intro s h
    exact CmdError.noConfusion h

/-- C3 (witness): with timeout 2 and interval 1, an always-not-found
lookup times out with `WaitTimeout` after 2 / 1 + 2 = 4 attempts. -/
theorem wait_times_out_witness :
    for_element 2 1 (fun _ => Except.error (CmdError.noSuchElement Json.null)) =
      some (Except.error CmdError.waitTimeout, 4) ∧
    for_elements 2 1 (fun _ => Except.error (CmdError.noSuchElement Json.null)) =
      some (Except.error CmdError.waitTimeout, 4) := by
  have h := wait_times_out 2 1 (by decide)
    (fun _ => Except.error (CmdError.noSuchElement Json.null))
    (fun _ => Except.error (CmdError.noSuchElement Json.null))
    (fun _ => Json.null) (fun _ => Json.null)
    (fun _ => rfl) (fun _ => rfl)
  exact ⟨h.1, h.2.1⟩

/-- C4: if the first lookup attempt fails with any error other than the
recognized not-found condition, both wait entry points return exactly that
error after exactly one lookup attempt, for every timeout and (positive)
interval setting. -/
theorem wait_fails_fast
    (T P : Nat) (_hP : 0 < P) (e : CmdError)
    (he : ∀ raw, e ≠ CmdError.noSuchElement raw)
    (f : Nat → Except CmdError Element) (g : Nat → Except CmdError (List Element))
    (hf : f 1 = Except.error e) (hg : g 1 = Except.error e) :
    for_element T P f = some (Except.error e, 1) ∧
    for_elements T P g = some (Except.error e, 1) := by
  have hfe : find_element (Except.error e) = Except.error e := by
    cases e <;> first | exact absurd rfl (he _) | rfl
  have hge : find_all_elements (Except.error e) = Except.error e := by
    cases e <;> first | exact absurd rfl (he _) | rfl
  have hstep : waitAttempts T P = (T / P + 2) + 1 := rfl
  constructor
  · show wait T P (fun k => find_element (f k)) = some (Except.error e, 1)
    rw [wait, hstep]
    simp only [waitFuel]
    rw [if_neg (by show ¬ T < (1 - 2) * P; simp)]
    rw [hf, hfe]
  · show wait T P (fun k => find_all_elements (g k)) = some (Except.error e, 1)
    rw [wait, hstep]
    simp only [waitFuel]
    rw [if_neg (by show ¬ T < (1 - 2) * P; simp)]
    rw [hg, hge]

/-- C4 (witness): a transport error on the first attempt is returned
as-is with exactly one attempt, under a 1000/250 timeout/interval
configuration. -/
theorem wait_fails_fast_witness :
    for_element 1000 250 (fun _ => Except.error (CmdError.standard "boom")) =
      some (Except.error (CmdError.standard "boom"), 1) ∧
    for_elements 1000 250 (fun _ => Except.error (CmdError.standard "boom")) =
      some (Except.error (CmdError.standard "boom"), 1) :=
  wait_fails_fast 1000 250 (by decide) (CmdError.standard "boom")
    (fun _ h => CmdError.noConfusion h)
    (fun _ => Except.error (CmdError.standard "boom"))
    (fun _ => Except.error (CmdError.standard "boom"))
    rfl rfl

/-- C7: if the first multi-element lookup attempt returns a well-formed
element list — any list, including the empty one — the multi-element wait
terminates successfully on that attempt and returns that list; the loop
does not keep polling until the list is non-empty. -/
theorem for_elements_found_on_ok
    (T P : Nat) (_hP : 0 < P) (l : List Element)
    (g : Nat → Except CmdError (List Element)) (hg : g 1 = Except.ok l) :
    for_elements T P g = some (Except.ok l, 1) := by
  have h := waitFuel_run_success T P (fun k => find_all_elements (g k)) l 0 1
    (waitAttempts T P)
    (fun i hi1 hi2 => absurd (lt_of_le_of_lt hi1 hi2) (by simp))
    (by show find_all_elements (g (1 + 0)) = Except.ok (some l); rw [show 1 + 0 = 1 from rfl, hg]; rfl)
    (fun i hi1 hi2 => by
      have : i = 1 := by omega
      subst this
      show (1 - 2) * P ≤ T
      simp)
    (Nat.succ_le_succ (Nat.zero_le _))
  exact h

/-- C7 (witness): an empty list on the very first attempt is "found":
the wait returns it immediately with one attempt, under the default
30/250 timing. -/
theorem for_elements_found_on_ok_witness :
    for_elements 30000 250 (fun _ => Except.ok []) = some (Except.ok [], 1) :=
  for_elements_found_on_ok 30000 250 (by decide) []
    (fun _ => Except.ok []) rfl
